import Mathlib

/-!
Verification development for a log-tailing Discord status bot
(mc_discord_bot.py).  The bot tails per-server Minecraft log files,
classifies lines into join/leave events with regular-expression
searches, keeps a per-server set of present players, and mirrors that
set into a persistent Discord embed message.

We shallowly embed the relevant parts:
  * the string machinery used by the reconciler: the Python `in`
    substring test, and a faithful model of CPython re.search for the
    two patterns used by the source, with leftmost-position-then-greedy
    group semantics, where the dot does not match a newline;
  * the per-line reconciler step of monitor_player_activity
    (lines 178-195 of the source), including whether update_embed is
    called and which log levels the loop emits for the line;
  * the file reading done by the tailer: Python readline at a given
    character offset over the current file content, and the polling
    loop around it (lines 168-176);
  * the startup offset initialisation of initialize_players
    (lines 106-108): seek to end of file and remember the position;
  * update_embed (lines 124-158) as a pure function from a bot state
    (channel cached?, embed_tracker dict, player_tracker dict) to a new
    state plus the trace of external calls (fetch/edit/send and writes
    of the embed-ids file).
-/

namespace MCBot

/-- Name of a player (or server), as the list of its characters. -/
abbrev PName := List Char

/-- Boolean test that the first list is an initial segment of the second. -/
def leadsWith : List Char → List Char → Bool
  | [], _ => true
  | _ :: _, [] => false
  | a :: as, b :: bs => a == b && leadsWith as bs

/-- Model of the Python substring operator (pat in s). -/
def containsSub (pat : List Char) : List Char → Bool
  | [] => pat.isEmpty
  | c :: rest => leadsWith pat (c :: rest) || containsSub pat rest

/-- Characters removed by Python str.strip with no argument. -/
def pySpace (c : Char) : Bool :=
  c == ' ' || c == '\t' || c == '\n' || c == '\r' || c == '\x0b' || c == '\x0c'

/-- Model of Python str.strip with no argument. -/
def pyStrip (s : List Char) : List Char :=
  ((s.dropWhile pySpace).reverse.dropWhile pySpace).reverse

/-- Valid cut point for the greedy group: group1 = t.take k must be
nonempty, contain no newline (the regex dot), and be followed by one of
the trailing literal alternatives. -/
def okCut (seps : List (List Char)) (t : List Char) (k : Nat) : Bool :=
  decide (1 ≤ k) && (t.take k).all (fun c => !(c == '\n'))
    && seps.any (fun sep => leadsWith sep (t.drop k))

/-- Greedy end of group1: the largest valid cut point, if any. -/
def greedyEnd (seps : List (List Char)) (t : List Char) : Option Nat :=
  (List.range (t.length + 1)).foldl
    (fun acc k => if okCut seps t k then some k else acc) none

/-- Attempt to match a pattern of the shape colon-space group1 sep at the
start of s, returning group1 (greedy). -/
def matchAt (seps : List (List Char)) : List Char → Option (List Char)
  | ':' :: ' ' :: t => (greedyEnd seps t).map (fun k => t.take k)
  | _ => none

/-- Model of CPython re.search for the two patterns used by the source:
try every start position from the left, and at the first position where
the whole pattern can match, take the greedy group. -/
def reSearch (seps : List (List Char)) : List Char → Option (List Char)
  | [] => none
  | c :: rest =>
    match matchAt seps (c :: rest) with
    | some g => some g
    | none => reSearch seps rest

/-- Keyword phrase of an enter line. -/
def kwJoined : List Char := "joined the game".data

/-- First keyword phrase of a leave line. -/
def kwLeft : List Char := "left the game".data

/-- Second keyword phrase of a leave line. -/
def kwLost : List Char := "lost connection".data

/-- Name extraction for enter lines: re.search of colon-space group1
space kwJoined, then strip, exactly as in source line 182-184. -/
def extractJoin (line : List Char) : Option PName :=
  (reSearch [' ' :: kwJoined] line).map pyStrip

/-- Name extraction for leave lines: re.search of colon-space group1
space (kwLeft or kwLost), then strip, as in source line 190-192. -/
def extractLeave (line : List Char) : Option PName :=
  (reSearch [' ' :: kwLeft, ' ' :: kwLost] line).map pyStrip

/-- Log levels emitted by the monitoring loop for a single line. -/
inductive LogLevel where
  | debug
  | info
  | warning
deriving DecidableEq, Repr

/-- One reconciler step of monitor_player_activity (source lines
178-195) on one line: the new presence set, whether update_embed was
awaited for this line, and the log levels the loop body emitted for it
(the debug new-log-entry record always comes first; an info record is
added on a successful join or leave; the loop body never logs a
warning). -/
def processLineFull (players : Finset PName) (line : List Char) :
    Finset PName × Bool × List LogLevel :=
  if containsSub kwJoined line then
    match extractJoin line with
    | some p => (insert p players, true, [LogLevel.debug, LogLevel.info])
    | none => (players, false, [LogLevel.debug])
  else if containsSub kwLeft line || containsSub kwLost line then
    match extractLeave line with
    | some p => (players.erase p, true, [LogLevel.debug, LogLevel.info])
    | none => (players, false, [LogLevel.debug])
  else (players, false, [LogLevel.debug])

/-- Presence set after the reconciler consumes a whole list of lines. -/
def runLines (init : Finset PName) (lines : List (List Char)) : Finset PName :=
  List.foldl (fun s l => (processLineFull s l).1) init lines

/-- Classification of a line, following the wording of the spec. -/
inductive LineClass where
  | enter (p : PName)
  | leave (p : PName)
  | ignore

/-- Spec-side classifier: a line is an enter event when it matches the
enter pattern with an extractable name, a leave event when it matches
one of the leave patterns with an extractable name, and is ignored
otherwise. -/
def classify (line : List Char) : LineClass :=
  if containsSub kwJoined line then
    match extractJoin line with
    | some p => LineClass.enter p
    | none => LineClass.ignore
  else if containsSub kwLeft line || containsSub kwLost line then
    match extractLeave line with
    | some p => LineClass.leave p
    | none => LineClass.ignore
  else LineClass.ignore

/-- Spec-side replay step: enter adds the extracted name, leave discards
it, anything else leaves the set unchanged. -/
def replayStep (s : Finset PName) (line : List Char) : Finset PName :=
  match classify line with
  | LineClass.enter p => insert p s
  | LineClass.leave p => s.erase p
  | LineClass.ignore => s

/-- The enter branch of the reconciler alone (source lines 181-187),
restricted to its effect on the presence set. -/
def enterStep (s : Finset PName) (line : List Char) : Finset PName :=
  match extractJoin line with
  | some p => insert p s
  | none => s

/-- Python readline limited to one line: everything up to and including
the first newline, or the whole remainder when no newline is present. -/
def takeLine : List Char → List Char
  | [] => []
  | c :: rest => if c = '\n' then [c] else c :: takeLine rest

/-- Python readline of the file content from character offset pos:
none models the empty-string result at (or beyond) end of file,
otherwise the line read (newline included if present) and the new
offset. -/
def readLineAt (content : List Char) (pos : Nat) : Option (List Char × Nat) :=
  match content.drop pos with
  | [] => none
  | c :: rest => some (takeLine (c :: rest), pos + (takeLine (c :: rest)).length)

/-- One iteration of the tailer loop (source lines 171-176): readline;
an empty result leaves the offset unchanged and yields nothing (the
loop sleeps and retries); otherwise the offset advances past the line
and the line is yielded to the reconciler. -/
def tailStep (content : List Char) (pos : Nat) : Nat × Option (List Char) :=
  match readLineAt content pos with
  | none => (pos, none)
  | some pl => (pl.2, some pl.1)

/-- Iterating the tailer loop n times over a fixed file content:
the final offset and the list of yielded lines, in order. -/
def tailRun (content : List Char) : Nat → Nat → Nat × List (List Char)
  | pos, 0 => (pos, [])
  | pos, n + 1 =>
    match readLineAt content pos with
    | none => tailRun content pos n
    | some pl =>
      ((tailRun content pl.2 n).1, pl.1 :: (tailRun content pl.2 n).2)

/-- Startup offset initialisation of initialize_players (source lines
106-108): seek to the end of the current file and record that
position.  No saved cursor is consulted; none exists. -/
def initPosition (content : List Char) : Nat := content.length

/-- Per-server mutable record held in player_tracker (source lines
110-114). -/
structure ServerInfo where
  players : Finset PName
  logFile : List Char
  position : Nat

/-- Content of the Discord embed built by update_embed (source lines
133-142), up to the unspecified iteration order of the Python set in
the joined player list: the title, whether the colour is green, the
player count of the description, and the optional players field. -/
structure Embed where
  title : List Char
  colorGreen : Bool
  countShown : Nat
  playersField : Option (Finset PName)

/-- Embed construction of update_embed: status Online and green colour
exactly when the presence set is nonempty, the count in the
description, and a players field only when the set is nonempty. -/
def makeEmbed (server : List Char) (players : Finset PName) : Embed :=
  Embed.mk
    (server ++ " - ".data ++ (if players = ∅ then "Offline".data else "Online".data))
    (if players = ∅ then false else true)
    players.card
    (if players = ∅ then none else some players)

/-- External calls made by update_embed: fetching a message by id,
editing it, sending a new one, and rewriting the embed-ids file with a
mapping. -/
inductive Call where
  | fetch (mid : Nat)
  | edit (mid : Nat) (e : Embed)
  | send (e : Embed)
  | save (f : List Char → Option Nat)

/-- Process-wide state touched by update_embed: whether the channel has
been cached, the embed_tracker dict (server name to message id) and the
player_tracker dict. -/
structure BotState where
  channelCached : Bool
  embedTracker : List Char → Option Nat
  playerTracker : List Char → Option ServerInfo

/-- Model of update_embed (source lines 124-158) for a server, given
which message ids the channel can still fetch and the id Discord would
assign to a newly sent message.  Returns none when the code would raise
(player_tracker lookup of an unknown server); otherwise the new state
and the external calls made, in order.  When the channel is not cached
the function returns before touching anything.  When the bound message
cannot be fetched (discord.NotFound) a new message is sent, the binding
is replaced and the embed-ids file rewritten. -/
def updateEmbed (msgExists : Nat → Bool) (newId : Nat) (st : BotState)
    (server : List Char) : Option (BotState × List Call) :=
  if st.channelCached = false then some (st, [])
  else
    match st.playerTracker server with
    | none => none
    | some info =>
      match st.embedTracker server with
      | some mid =>
        if msgExists mid then
          some (st, [Call.fetch mid, Call.edit mid (makeEmbed server info.players)])
        else
          some (BotState.mk st.channelCached
              (fun s => if s = server then some newId else st.embedTracker s)
              st.playerTracker,
            [Call.fetch mid, Call.send (makeEmbed server info.players),
             Call.save (fun s => if s = server then some newId else st.embedTracker s)])
      | none =>
        some (BotState.mk st.channelCached
            (fun s => if s = server then some newId else st.embedTracker s)
            st.playerTracker,
          [Call.send (makeEmbed server info.players),
           Call.save (fun s => if s = server then some newId else st.embedTracker s)])

/-- Two consecutive invocations of update_embed for the same server,
with the concatenated call trace. -/
def updateEmbedTwice (msgExists : Nat → Bool) (newId : Nat) (st : BotState)
    (server : List Char) : Option (BotState × List Call) :=
  match updateEmbed msgExists newId st server with
  | none => none
  | some r =>
    match updateEmbed msgExists newId r.1 server with
    | none => none
    | some r2 => some (r2.1, r.2 ++ r2.2)

/-- Player name used in concrete examples. -/
def pA : PName := "A".data

/-- A complete enter line for player A, newline terminated. -/
def lineJoinA : List Char := ": A joined the game\n".data

/-- The same enter line with the trailing newline not yet written. -/
def lineNoNl : List Char := ": A joined the game".data

/-- A line containing the enter keyword from which no name can be
extracted (no colon-space separator precedes a name). -/
def badLine : List Char := "joined the game".data

/-- A line containing both the enter phrase and a leave phrase. -/
def bothLine : List Char := ": A joined the game left the game\n".data

/-- File content holding one complete enter line. -/
def content1 : List Char := ": A joined the game\n".data

/-- The same file after one more enter line was appended. -/
def content2 : List Char := content1 ++ ": B joined the game\n".data

/-- Per-server record used in concrete update_embed examples. -/
def exInfo : ServerInfo := ServerInfo.mk {pA} "log".data 0

/-- Server name used in concrete update_embed examples. -/
def exServer : List Char := "alpha".data

/-- Bot state with the channel cached, every server bound to message 5
and every server tracked with exInfo. -/
def exStBound : BotState :=
  BotState.mk true (fun _ => some 5) (fun _ => some exInfo)

/-- Bot state identical to exStBound but with the channel not cached. -/
def exStNoChan : BotState :=
  BotState.mk false (fun _ => some 5) (fun _ => some exInfo)

/-- Channel in which every message id can be fetched. -/
def exMsgAll : Nat → Bool := fun _ => true

/-- Channel in which no message id can be fetched. -/
def exMsgNone : Nat → Bool := fun _ => false

/-- Helper: the effect of one reconciler step on the presence set is
exactly the spec-side replay step. -/
theorem processLineFull_fst (s : Finset PName) (l : List Char) :
    (processLineFull s l).1 = replayStep s l := by
  unfold processLineFull replayStep classify
  by_cases h1 : containsSub kwJoined l = true
  · cases h2 : extractJoin l <;> simp [h1, h2]
  · by_cases h3 : (containsSub kwLeft l || containsSub kwLost l) = true
    · cases h4 : extractLeave l <;> simp [h1, h3, h4]
    · simp [h1, h3]

/-- Helper: readline at or beyond end of file returns the empty result. -/
theorem readLineAt_none_of_le (content : List Char) (pos : Nat)
    (h : content.length ≤ pos) : readLineAt content pos = none := by
  unfold readLineAt
  rw [List.drop_eq_nil_of_le h]

/-- Helper: with the offset at or beyond end of file, any number of loop
iterations leaves the offset unchanged and yields no lines. -/
theorem tailRun_stuck (content : List Char) (pos : Nat)
    (h : content.length ≤ pos) : ∀ n, tailRun content pos n = (pos, []) := by
  intro n
  induction n with
  | zero => rfl
  | succ n ih =>
    unfold tailRun
    rw [readLineAt_none_of_le content pos h]
    exact ih

/-- Helper: takeLine over newline-free text returns all of it. -/
theorem takeLine_of_no_newline :
    ∀ l : List Char, l.all (fun c => !(c == '\n')) = true → takeLine l = l := by
  intro l
  induction l with
  | nil => intro _; rfl
  | cons c rest ih =>
    intro h
    simp only [List.all_cons, Bool.and_eq_true, Bool.not_eq_true'] at h
    have hc : ¬ c = '\n' := by simpa using h.1
    unfold takeLine
    rw [if_neg hc, ih h.2]

/-- Claim C1: feeding the Reconciler any finite sequence of lines, the
final presence set is the fold of the sequence by the replay step in
which an enter line inserts the extracted name, a leave line erases it
and any other line changes nothing; moreover an enter of a present
player and a leave of an absent player leave the set unchanged. -/
theorem reconciler_replay :
    (∀ (init : Finset PName) (lines : List (List Char)),
      runLines init lines = List.foldl replayStep init lines) ∧
    (∀ (s : Finset PName) (l : List Char) (p : PName),
      containsSub kwJoined l = true → extractJoin l = some p → p ∈ s →
      (processLineFull s l).1 = s) ∧
    (∀ (s : Finset PName) (l : List Char) (p : PName),
      containsSub kwJoined l = false →
      (containsSub kwLeft l || containsSub kwLost l) = true →
      extractLeave l = some p → p ∉ s →
      (processLineFull s l).1 = s) := by
  refine ⟨?_, ?_, ?_⟩
  · intro init lines
    induction lines generalizing init with
    | nil => rfl
    | cons x xs ih =>
      show runLines ((processLineFull init x).1) xs
        = List.foldl replayStep (replayStep init x) xs
      rw [processLineFull_fst]
      exact ih (replayStep init x)
  · intro s l p h1 h2 hm
    unfold processLineFull
    simp only [h1, if_true, h2]
    exact Finset.insert_eq_self.mpr hm
  · intro s l p h1 h2 h3 hm
    unfold processLineFull
    simp only [h1, h2, h3, Bool.false_eq_true, if_false, if_true]
    exact Finset.erase_eq_of_not_mem hm

/-- Witness for C1: a duplicate enter of the already present player A
leaves the singleton presence set unchanged. -/
theorem reconciler_replay_witness :
    containsSub kwJoined lineJoinA = true ∧ extractJoin lineJoinA = some pA ∧
    pA ∈ ({pA} : Finset PName) ∧
    (processLineFull ({pA} : Finset PName) lineJoinA).1 = ({pA} : Finset PName) :=
  ⟨by decide, by decide, by decide,
    reconciler_replay.2.1 {pA} lineJoinA pA (by decide) (by decide) (by decide)⟩

/-- Counterexample to C2: with the file (20 characters) shorter than the
stored offset 100, the tailer loop does not move to offset 0 of the
current file: the offset stays at 100 and no line is ever yielded, even
though the file begins with a complete enter line. -/
theorem truncation_no_reopen_cex :
    content1.length < 100 ∧
    tailStep content1 100 = (100, none) ∧
    (tailStep content1 100).1 ≠ 0 ∧
    tailRun content1 100 5 = (100, []) := by decide

/-- Claim C2 amended: when the file is shorter than (or equal to) the
stored offset, the tailer does not raise, but it also never reopens the
file: every further iteration leaves the offset unchanged and yields
nothing. -/
theorem truncation_stale_offset (content : List Char) (pos n : Nat)
    (h : content.length ≤ pos) : tailRun content pos n = (pos, []) :=
  tailRun_stuck content pos h n

/-- Witness for the amended C2 at a concrete truncated file. -/
theorem truncation_stale_offset_witness :
    content1.length ≤ 100 ∧ tailRun content1 100 3 = (100, []) :=
  ⟨by decide, truncation_stale_offset content1 100 3 (by decide)⟩

/-- Counterexample to C3: the first run fully consumed content1 (offset
20); after a restart with one more enter line appended, the startup
offset is the new end of file, 40, which is strictly after the last
fully-processed line, and the appended line is never yielded. -/
theorem cursor_not_persisted_cex :
    content1.length = 20 ∧ initPosition content2 = 40 ∧
    20 < initPosition content2 ∧
    tailRun content2 (initPosition content2) 5 = (initPosition content2, []) := by
  decide

/-- Claim C3 amended: the offset advances in memory past each line that
readline returns, but no cursor is ever persisted: at every startup the
offset is re-initialised to the length of the current file, so the
resumed tailer yields none of the lines appended while the process was
down. -/
theorem cursor_memory_only :
    (∀ (content : List Char) (pos : Nat) (l : List Char) (p' : Nat),
      readLineAt content pos = some (l, p') → p' = pos + l.length) ∧
    (∀ content : List Char, initPosition content = content.length) ∧
    (∀ (content extra : List Char) (n : Nat),
      tailRun (content ++ extra) (initPosition (content ++ extra)) n
        = (content.length + extra.length, [])) := by
  refine ⟨?_, fun _ => rfl, ?_⟩
  · intro content pos l p' h
    unfold readLineAt at h
    cases h0 : content.drop pos with
    | nil => rw [h0] at h; cases h
    | cons c rest =>
      rw [h0] at h
      simp only [Option.some.injEq, Prod.mk.injEq] at h
      rw [← h.1, ← h.2]
  · intro content extra n
    have e : initPosition (content ++ extra) = content.length + extra.length := by
      unfold initPosition
      rw [List.length_append]
    rw [e]
    exact tailRun_stuck _ _ (by rw [List.length_append]) n

/-- Witness for the amended C3: readline of the complete first line
advances the in-memory offset exactly past it. -/
theorem cursor_memory_only_witness :
    readLineAt content1 0 = some (content1, 20) ∧ (20 : Nat) = 0 + content1.length :=
  ⟨by decide, cursor_memory_only.1 content1 0 content1 20 (by decide)⟩

/-- Counterexample to C4: an enter line whose trailing newline has not
yet been written is nevertheless yielded by the tailer in full, and
processing it inserts player A into the presence set. -/
theorem partial_line_yielded_cex :
    lineNoNl.all (fun c => !(c == '\n')) = true ∧
    tailStep lineNoNl 0 = (lineNoNl.length, some lineNoNl) ∧
    (processLineFull ∅ lineNoNl).1 = ({pA} : Finset PName) := by decide

/-- Claim C4 amended: whenever unread data with no newline terminator is
present at the end of the file, the tailer yields it immediately as a
line (it does not wait for the terminator), advancing the offset to the
end of the file. -/
theorem partial_line_behavior (content : List Char) (pos : Nat)
    (hlt : pos < content.length)
    (hnl : (content.drop pos).all (fun c => !(c == '\n')) = true) :
    tailStep content pos = (content.length, some (content.drop pos)) := by
  unfold tailStep readLineAt
  cases h0 : content.drop pos with
  | nil =>
    exfalso
    have hlen : (content.drop pos).length = content.length - pos :=
      List.length_drop pos content
    rw [h0] at hlen
    simp at hlen
    omega
  | cons c rest =>
    rw [h0] at hnl
    dsimp only
    rw [takeLine_of_no_newline _ hnl]
    have hlen : (content.drop pos).length = content.length - pos :=
      List.length_drop pos content
    rw [h0] at hlen
    simp only [Prod.mk.injEq]
    exact ⟨by omega, trivial⟩

/-- Witness for the amended C4 at the concrete unterminated enter line. -/
theorem partial_line_behavior_witness :
    0 < lineNoNl.length ∧
    (lineNoNl.drop 0).all (fun c => !(c == '\n')) = true ∧
    tailStep lineNoNl 0 = (lineNoNl.length, some (lineNoNl.drop 0)) :=
  ⟨by decide, by decide, partial_line_behavior lineNoNl 0 (by decide) (by decide)⟩

/-- Counterexample to C5: an enter line for player A processed while A
is already present leaves the presence set unchanged, yet a display
sync is still triggered. -/
theorem sync_unchanged_set_cex :
    (processLineFull ({pA} : Finset PName) lineJoinA).1 = ({pA} : Finset PName) ∧
    (processLineFull ({pA} : Finset PName) lineJoinA).2.1 = true := by decide

/-- Claim C5 amended: a display sync is triggered exactly when a name
was successfully extracted from an enter or leave line, regardless of
whether the presence set changed. -/
theorem sync_iff_extract (s : Finset PName) (l : List Char) :
    (processLineFull s l).2.1 =
      (if containsSub kwJoined l then (extractJoin l).isSome
       else if containsSub kwLeft l || containsSub kwLost l then
         (extractLeave l).isSome
       else false) := by
  unfold processLineFull
  by_cases h1 : containsSub kwJoined l = true
  · cases h2 : extractJoin l <;> simp [h1, h2]
  · by_cases h3 : (containsSub kwLeft l || containsSub kwLost l) = true
    · cases h4 : extractLeave l <;> simp [h1, h3, h4]
    · simp [h1, h3]

/-- Claim C6: with the channel cached, the server tracked, a binding
present and the bound message fetchable, two consecutive syncs edit the
bound message twice with the same embed content, send nothing, rewrite
no file and leave the whole state (in particular the binding)
unchanged. -/
theorem sync_idempotent (msgExists : Nat → Bool) (newId : Nat) (st : BotState)
    (server : List Char) (info : ServerInfo) (mid : Nat)
    (hc : st.channelCached = true) (hp : st.playerTracker server = some info)
    (hb : st.embedTracker server = some mid) (hm : msgExists mid = true) :
    updateEmbedTwice msgExists newId st server =
      some (st, [Call.fetch mid, Call.edit mid (makeEmbed server info.players),
                 Call.fetch mid, Call.edit mid (makeEmbed server info.players)]) := by
  unfold updateEmbedTwice updateEmbed
  simp [hc, hp, hb, hm]

/-- Witness for C6 at a concrete bound state with a fetchable message. -/
theorem sync_idempotent_witness :
    exStBound.channelCached = true ∧
    exStBound.playerTracker exServer = some exInfo ∧
    exStBound.embedTracker exServer = some 5 ∧ exMsgAll 5 = true ∧
    updateEmbedTwice exMsgAll 7 exStBound exServer =
      some (exStBound,
        [Call.fetch 5, Call.edit 5 (makeEmbed exServer exInfo.players),
         Call.fetch 5, Call.edit 5 (makeEmbed exServer exInfo.players)]) :=
  ⟨rfl, rfl, rfl, rfl,
    sync_idempotent exMsgAll 7 exStBound exServer exInfo 5 rfl rfl rfl rfl⟩

/-- Claim C7: when the bound message cannot be fetched, the sync sends a
new card, replaces the binding of this server by the new message id
(bindings of all other servers untouched, so still at most one binding
per server) and rewrites the embed-ids file with exactly the updated
mapping. -/
theorem sync_heals_missing (msgExists : Nat → Bool) (newId : Nat) (st : BotState)
    (server : List Char) (info : ServerInfo) (mid : Nat)
    (hc : st.channelCached = true) (hp : st.playerTracker server = some info)
    (hb : st.embedTracker server = some mid) (hm : msgExists mid = false) :
    ∃ st2, updateEmbed msgExists newId st server =
        some (st2, [Call.fetch mid, Call.send (makeEmbed server info.players),
                    Call.save st2.embedTracker]) ∧
      st2.embedTracker server = some newId ∧
      (∀ s, s ≠ server → st2.embedTracker s = st.embedTracker s) ∧
      st2.playerTracker = st.playerTracker ∧
      st2.channelCached = st.channelCached := by
  refine ⟨BotState.mk st.channelCached
      (fun s => if s = server then some newId else st.embedTracker s)
      st.playerTracker, ?_, ?_, ?_, rfl, rfl⟩
  · unfold updateEmbed
    simp [hc, hp, hb, hm]
  · simp
  · intro s hs
    simp [hs]

/-- Witness for C7 at a concrete bound state whose message is gone. -/
theorem sync_heals_missing_witness :
    exStBound.channelCached = true ∧
    exStBound.playerTracker exServer = some exInfo ∧
    exStBound.embedTracker exServer = some 5 ∧ exMsgNone 5 = false ∧
    (∃ st2, updateEmbed exMsgNone 7 exStBound exServer =
        some (st2, [Call.fetch 5, Call.send (makeEmbed exServer exInfo.players),
                    Call.save st2.embedTracker]) ∧
      st2.embedTracker exServer = some 7 ∧
      (∀ s, s ≠ exServer → st2.embedTracker s = exStBound.embedTracker s) ∧
      st2.playerTracker = exStBound.playerTracker ∧
      st2.channelCached = exStBound.channelCached) :=
  ⟨rfl, rfl, rfl, rfl,
    sync_heals_missing exMsgNone 7 exStBound exServer exInfo 5 rfl rfl rfl rfl⟩

/-- Counterexample to C8: a line that contains the enter keyword but
from which no name can be extracted is skipped without any state
change and without any sync, but no warning is logged: the loop body
emits only the routine debug record. -/
theorem no_warning_cex :
    containsSub kwJoined badLine = true ∧
    extractJoin badLine = none ∧
    processLineFull ∅ badLine = (∅, false, [LogLevel.debug]) ∧
    LogLevel.warning ∉ (processLineFull (∅ : Finset PName) badLine).2.2 := by
  decide

/-- Claim C8 amended: a line containing an enter or leave keyword from
which no name can be extracted is skipped silently: the presence set is
unchanged, no sync is triggered, the loop does not crash, and only the
routine debug record (no warning) is logged. -/
theorem unextractable_silent_skip :
    (∀ (s : Finset PName) (l : List Char), containsSub kwJoined l = true →
      extractJoin l = none →
      processLineFull s l = (s, false, [LogLevel.debug])) ∧
    (∀ (s : Finset PName) (l : List Char), containsSub kwJoined l = false →
      (containsSub kwLeft l || containsSub kwLost l) = true →
      extractLeave l = none →
      processLineFull s l = (s, false, [LogLevel.debug])) := by
  constructor
  · intro s l h1 h2
    unfold processLineFull
    simp [h1, h2]
  · intro s l h1 h2 h3
    unfold processLineFull
    simp [h1, h2, h3]

/-- Witness for the amended C8 at the concrete unextractable line. -/
theorem unextractable_silent_skip_witness :
    containsSub kwJoined badLine = true ∧ extractJoin badLine = none ∧
    processLineFull (∅ : Finset PName) badLine = (∅, false, [LogLevel.debug]) :=
  ⟨by decide, by decide,
    unextractable_silent_skip.1 ∅ badLine (by decide) (by decide)⟩

/-- Claim C9: on a line containing both the enter phrase and a leave
phrase, only the enter branch runs: the step equals the pure enter
branch, and the presence set undergoes at most one mutation, either
nothing or a single insert, never an erase as well. -/
theorem enter_precedence :
    ∀ (s : Finset PName) (l : List Char), containsSub kwJoined l = true →
      (containsSub kwLeft l || containsSub kwLost l) = true →
      (processLineFull s l).1 = enterStep s l ∧
        ((processLineFull s l).1 = s ∨
          ∃ p, (processLineFull s l).1 = insert p s) := by
  intro s l h1 _
  unfold processLineFull enterStep
  cases h3 : extractJoin l with
  | none => simp [h1, h3]
  | some p =>
    simp only [h1, if_true, h3]
    exact ⟨trivial, Or.inr ⟨p, rfl⟩⟩

/-- Witness for C9 at a concrete line containing both phrases. -/
theorem enter_precedence_witness :
    containsSub kwJoined bothLine = true ∧
    (containsSub kwLeft bothLine || containsSub kwLost bothLine) = true ∧
    ((processLineFull (∅ : Finset PName) bothLine).1 = enterStep ∅ bothLine ∧
      ((processLineFull (∅ : Finset PName) bothLine).1 = ∅ ∨
        ∃ p, (processLineFull (∅ : Finset PName) bothLine).1 = insert p ∅)) :=
  ⟨by decide, by decide, enter_precedence ∅ bothLine (by decide) (by decide)⟩

/-- Claim C10: when the channel has not been cached yet, update_embed
returns before doing anything: the whole bot state (bindings, presence
sets, offsets) is returned unchanged and no external call, message send
or file write occurs. -/
theorem no_channel_noop (msgExists : Nat → Bool) (newId : Nat) (st : BotState)
    (server : List Char) (hc : st.channelCached = false) :
    updateEmbed msgExists newId st server = some (st, []) := by
  unfold updateEmbed
  rw [hc]
  simp

/-- Witness for C10 at a concrete state without a cached channel. -/
theorem no_channel_noop_witness :
    exStNoChan.channelCached = false ∧
    updateEmbed exMsgAll 7 exStNoChan exServer = some (exStNoChan, []) :=
  ⟨rfl, no_channel_noop exMsgAll 7 exStNoChan exServer rfl⟩

end MCBot
